import Mathlib

/-!
Verification of the narrator streaming-audio core: a shallow embedding of the
WAV encoder (`src/utils/wavEncoder.ts`), the streaming playback scheduler
(`StreamingAudioPlayer`), the WebSocket narration session handlers
(`src/api/endpoints/narration.ts`), the script parser/validator
(`src/utils/scriptParser.ts`), and the plugin's `narrateScript` flow
(`src/main.ts`).

Conventions: JS `number` time values and float32 samples are modelled as `ℚ`
(all arithmetic the code performs on them — clamping, scaling by 2^15/2^15-1,
multiplication by powers of two, additions of 0.1s — is exact in ℚ for every
representable float input); byte buffers are `List ℕ` with each entry < 256;
`DataView.setUint32`/`setUint16` truncation is modelled by explicit `% 2^32`
and `% 2^16`; `Int16Array` element conversion truncates toward zero.
-/

/-! ## Waveform encoder (src/utils/wavEncoder.ts) -/

/-- `Math.max(-1, Math.min(1, samples[i]))` — clamp a sample to [-1, 1]. -/
def clampSample (s : ℚ) : ℚ := max (-1) (min 1 s)

/-- Truncation toward zero, the conversion JS applies when a float is stored
into an `Int16Array` slot (ToIntegerOrInfinity). -/
def ratTrunc (q : ℚ) : ℤ := if q < 0 then -(⌊-q⌋) else ⌊q⌋

/-- `int16Samples[i] = s < 0 ? s * 0x8000 : s * 0x7fff` after clamping. -/
def floatToInt16 (s : ℚ) : ℤ :=
  let c := clampSample s
  if c < 0 then ratTrunc (c * 32768) else ratTrunc (c * 32767)

/-- Bytes written by `DataView.setUint16(_, v, true)` (little endian). -/
def u16le (v : ℕ) : List ℕ := [v % 65536 % 256, v % 65536 / 256]

/-- Bytes written by `DataView.setUint32(_, v, true)` (little endian). -/
def u32le (v : ℕ) : List ℕ :=
  [v % 4294967296 % 256, v % 4294967296 / 256 % 256,
   v % 4294967296 / 65536 % 256, v % 4294967296 / 16777216]

/-- Bytes written by `DataView.setInt16(_, v, true)`: two's complement,
little endian. -/
def i16le (v : ℤ) : List ℕ := u16le (v % 65536).toNat

/-- The 44-byte WAV header `encodeWAV` writes: "RIFF", file size - 8, "WAVE",
"fmt ", fmt-chunk size 16, PCM format 1, 1 channel, sample rate,
byte rate = rate·1·2, block align 2, 16 bits per sample, "data",
data byte length. -/
def wavHeader (sampleRate dataLength : ℕ) : List ℕ :=
  [82, 73, 70, 70] ++ u32le (36 + dataLength) ++ [87, 65, 86, 69] ++
  [102, 109, 116, 32] ++ u32le 16 ++ u16le 1 ++ u16le 1 ++
  u32le sampleRate ++ u32le (sampleRate * 1 * 2) ++ u16le (1 * 2) ++
  u16le (2 * 8) ++ [100, 97, 116, 97] ++ u32le dataLength

/-- `encodeWAV(samples, sampleRate)`: header followed by the converted
samples, two bytes each, little endian. -/
def encodeWAV (samples : List ℚ) (sampleRate : ℕ) : List ℕ :=
  let int16Samples := samples.map floatToInt16
  let dataLength := int16Samples.length * 2
  wavHeader sampleRate dataLength ++ int16Samples.flatMap i16le

/-! Independent byte-level readers used to state header properties. -/

/-- Byte at an offset of a buffer (0 past the end). -/
def byteAt (bs : List ℕ) (i : ℕ) : ℕ := bs.getD i 0

/-- Read a little-endian 16-bit value at an offset. -/
def readU16le (bs : List ℕ) (off : ℕ) : ℕ :=
  byteAt bs off + 256 * byteAt bs (off + 1)

/-- Read a little-endian 32-bit value at an offset. -/
def readU32le (bs : List ℕ) (off : ℕ) : ℕ :=
  byteAt bs off + 256 * byteAt bs (off + 1) +
  65536 * byteAt bs (off + 2) + 16777216 * byteAt bs (off + 3)

theorem wavHeader_length (r dl : ℕ) : (wavHeader r dl).length = 44 := by
  simp [wavHeader, u32le, u16le]

theorem encodeWAV_length (samples : List ℚ) (r : ℕ) :
    (encodeWAV samples r).length = 44 + 2 * samples.length := by
  have hbl : ∀ l : List ℤ, (l.flatMap i16le).length = 2 * l.length := by
    intro l
    induction l with
    | nil => simp
    | cons a t ih => simp [i16le, u16le, ih]; ring
  simp [encodeWAV, wavHeader_length, hbl]

theorem encodeWAV_payload (samples : List ℚ) (r : ℕ) :
    (encodeWAV samples r).drop 44 = (samples.map floatToInt16).flatMap i16le := by
  have h := wavHeader_length r ((samples.map floatToInt16).length * 2)
  simp only [encodeWAV]
  rw [← h, List.drop_left]

theorem byteAt_encodeWAV_header (samples : List ℚ) (r i : ℕ) (h : i < 44) :
    byteAt (encodeWAV samples r) i
      = byteAt (wavHeader r ((samples.map floatToInt16).length * 2)) i := by
  simp only [encodeWAV, byteAt]
  rw [List.getD_append]
  rw [wavHeader_length]
  exact h

theorem encodeWAV_sample_values :
    [(3:ℚ)/2, -2, 0].map floatToInt16 = [(1:ℚ), -1, 0].map floatToInt16 := by
  norm_num [floatToInt16, clampSample, ratTrunc, min_def, max_def]

/-- Claim C2 (amended with 32-bit header-field bounds): for samples of
length n and a positive sample rate with 2·rate < 2³² and 36 + 2n < 2³²,
`encodeWAV` yields a 44 + 2n byte buffer whose header declares PCM format 1,
1 channel, 16 bits per sample, the given sample rate, byte rate 2·rate,
RIFF size 36 + 2n and data length 2n, followed by the little-endian 16-bit
samples obtained by clamping to [-1, 1] and scaling by 32768 (negative) or
32767 (non-negative); encode([1.5, -2.0, 0.0], 8000) has the same sample
payload as encode([1.0, -1.0, 0.0], 8000). -/
theorem encodeWAV_spec (samples : List ℚ) (sampleRate : ℕ)
    (hpos : 0 < sampleRate)
    (hr : 2 * sampleRate < 4294967296)
    (hn : 36 + 2 * samples.length < 4294967296) :
    (encodeWAV samples sampleRate).length = 44 + 2 * samples.length
    ∧ readU32le (encodeWAV samples sampleRate) 4 = 36 + 2 * samples.length
    ∧ readU16le (encodeWAV samples sampleRate) 20 = 1
    ∧ readU16le (encodeWAV samples sampleRate) 22 = 1
    ∧ readU32le (encodeWAV samples sampleRate) 24 = sampleRate
    ∧ readU32le (encodeWAV samples sampleRate) 28 = sampleRate * 2
    ∧ readU16le (encodeWAV samples sampleRate) 34 = 16
    ∧ readU32le (encodeWAV samples sampleRate) 40 = 2 * samples.length
    ∧ (encodeWAV samples sampleRate).drop 44
        = (samples.map fun s =>
            if clampSample s < 0 then ratTrunc (clampSample s * 32768)
            else ratTrunc (clampSample s * 32767)).flatMap i16le
    ∧ (encodeWAV [3/2, -2, 0] 8000).drop 44 = (encodeWAV [1, -1, 0] 8000).drop 44 := by
  have hB : ∀ i, i < 44 →
      byteAt (encodeWAV samples sampleRate) i
        = byteAt (wavHeader sampleRate ((samples.map floatToInt16).length * 2)) i :=
    fun i h => byteAt_encodeWAV_header samples sampleRate i h
  have hw32 : ∀ off, off + 3 < 44 →
      readU32le (encodeWAV samples sampleRate) off
        = readU32le (wavHeader sampleRate ((samples.map floatToInt16).length * 2)) off := by
    intro off h
    simp only [readU32le]
    rw [hB off (by omega), hB (off + 1) (by omega), hB (off + 2) (by omega),
      hB (off + 3) (by omega)]
  have hw16 : ∀ off, off + 1 < 44 →
      readU16le (encodeWAV samples sampleRate) off
        = readU16le (wavHeader sampleRate ((samples.map floatToInt16).length * 2)) off := by
    intro off h
    simp only [readU16le]
    rw [hB off (by omega), hB (off + 1) (by omega)]
  have hlen : (samples.map floatToInt16).length * 2 = 2 * samples.length := by
    simp [Nat.mul_comm]
  refine ⟨encodeWAV_length samples sampleRate, ?_, ?_, ?_, ?_, ?_, ?_, ?_, ?_, ?_⟩
  · rw [hw32 4 (by norm_num), hlen]
    simp [wavHeader, u32le, u16le, readU32le, byteAt]
    omega
  · rw [hw16 20 (by norm_num)]
    simp [wavHeader, u32le, u16le, readU16le, byteAt]
  · rw [hw16 22 (by norm_num)]
    simp [wavHeader, u32le, u16le, readU16le, byteAt]
  · rw [hw32 24 (by norm_num)]
    simp [wavHeader, u32le, u16le, readU32le, byteAt]
    omega
  · rw [hw32 28 (by norm_num)]
    simp [wavHeader, u32le, u16le, readU32le, byteAt]
    omega
  · rw [hw16 34 (by norm_num)]
    simp [wavHeader, u32le, u16le, readU16le, byteAt]
  · rw [hw32 40 (by norm_num), hlen]
    simp [wavHeader, u32le, u16le, readU32le, byteAt]
    omega
  · rw [encodeWAV_payload]
    rfl
  · rw [encodeWAV_payload, encodeWAV_payload, encodeWAV_sample_values]

/-- Claim C2 counterexample: at sample rate 2³¹ (a positive integer), the
32-bit byte-rate header field wraps to 0 instead of 2·2³¹, so the claim's
universal quantification over all positive sample rates fails. -/
theorem encodeWAV_byterate_wraps :
    readU32le (encodeWAV [0] 2147483648) 28 = 0
    ∧ 2147483648 * 2 ≠ 0 := by
  constructor
  · have hB := byteAt_encodeWAV_header [0] 2147483648
    simp only [readU32le, hB 28 (by norm_num), hB 29 (by norm_num), hB 30 (by norm_num),
      hB 31 (by norm_num)]
    rfl
  · norm_num

/-- Witness for `encodeWAV_spec` at samples [3/2, -2, 0] and rate 8000. -/
theorem encodeWAV_spec_witness :
    (0 < 8000 ∧ 2 * 8000 < 4294967296 ∧ 36 + 2 * ([(3:ℚ)/2, -2, 0]).length < 4294967296)
    ∧ ((encodeWAV [(3:ℚ)/2, -2, 0] 8000).length = 44 + 2 * ([(3:ℚ)/2, -2, 0]).length
       ∧ readU32le (encodeWAV [(3:ℚ)/2, -2, 0] 8000) 4 = 36 + 2 * ([(3:ℚ)/2, -2, 0]).length
       ∧ readU16le (encodeWAV [(3:ℚ)/2, -2, 0] 8000) 20 = 1
       ∧ readU16le (encodeWAV [(3:ℚ)/2, -2, 0] 8000) 22 = 1
       ∧ readU32le (encodeWAV [(3:ℚ)/2, -2, 0] 8000) 24 = 8000
       ∧ readU32le (encodeWAV [(3:ℚ)/2, -2, 0] 8000) 28 = 8000 * 2
       ∧ readU16le (encodeWAV [(3:ℚ)/2, -2, 0] 8000) 34 = 16
       ∧ readU32le (encodeWAV [(3:ℚ)/2, -2, 0] 8000) 40 = 2 * ([(3:ℚ)/2, -2, 0]).length
       ∧ (encodeWAV [(3:ℚ)/2, -2, 0] 8000).drop 44
           = (([(3:ℚ)/2, -2, 0]).map fun s =>
               if clampSample s < 0 then ratTrunc (clampSample s * 32768)
               else ratTrunc (clampSample s * 32767)).flatMap i16le
       ∧ (encodeWAV [3/2, -2, 0] 8000).drop 44 = (encodeWAV [1, -1, 0] 8000).drop 44) :=
  ⟨⟨by norm_num, by norm_num, by norm_num⟩,
   encodeWAV_spec [(3:ℚ)/2, -2, 0] 8000 (by norm_num) (by norm_num) (by norm_num)⟩

/-! ## Streaming playback scheduler (StreamingAudioPlayer, src/utils/audioPlayer.ts) -/

/-- State of a `StreamingAudioPlayer` instance. `contextClosed` records whether
`audioContext.close()` has been called (`destroy`); `sources` is the number of
currently tracked `AudioBufferSourceNode`s. Device-clock readings
(`audioContext.currentTime`) are passed in explicitly as `now` arguments. -/
structure PlayerState where
  audioChunks : List (List ℚ)
  sources : ℕ
  isPlaying : Bool
  isPaused : Bool
  scheduledTime : ℚ
  startTime : ℚ
  sampleRate : ℕ
  contextClosed : Bool
deriving DecidableEq

/-- `new StreamingAudioPlayer()`: empty chunk list, not playing, default
sample rate 22050. -/
def newPlayer : PlayerState :=
  { audioChunks := [], sources := 0, isPlaying := false, isPaused := false,
    scheduledTime := 0, startTime := 0, sampleRate := 22050, contextClosed := false }

/-- `audioBuffer.duration` for a buffer of `data.length` frames created at
`rate` Hz: `sampleCount / sampleRate` seconds. -/
def chunkDuration (data : List ℚ) (rate : ℕ) : ℚ := (data.length : ℚ) / (rate : ℚ)

/-- `addPCMChunk(audioData, sampleRate)` at device-clock time `now`: append the
chunk to `audioChunks`, update `sampleRate`, on the first chunk set the
scheduling anchor to `now + 0.1`, schedule the source at the current
`scheduledTime` and advance `scheduledTime` by the buffer duration. Returns
the new state and the start time passed to `source.start`. -/
def addPCMChunk (p : PlayerState) (audioData : List ℚ) (rate : ℕ) (now : ℚ) :
    PlayerState × ℚ :=
  let p1 := { p with audioChunks := p.audioChunks ++ [audioData], sampleRate := rate }
  let p2 := if p1.isPlaying then p1
            else { p1 with isPlaying := true, scheduledTime := now + 1/10, startTime := now }
  let start := p2.scheduledTime
  ({ p2 with sources := p2.sources + 1,
             scheduledTime := p2.scheduledTime + chunkDuration audioData rate }, start)

/-- `getCollectedAudio()`: concatenation of all retained chunks in arrival
order. -/
def getCollectedAudio (p : PlayerState) : List ℚ := p.audioChunks.flatten

/-- `getSampleRate()`. -/
def getSampleRate (p : PlayerState) : ℕ := p.sampleRate

/-- `getRemainingPlaybackTime()` at device-clock time `now`. -/
def getRemainingPlaybackTime (p : PlayerState) (now : ℚ) : ℚ :=
  if p.isPlaying then max 0 (p.scheduledTime - now) else 0

/-- `stop()`: stop and drop all scheduled sources and reset playback state;
retained chunks are preserved and the audio context stays open. -/
def stopPlayer (p : PlayerState) : PlayerState :=
  { p with sources := 0, isPlaying := false, isPaused := false,
           scheduledTime := 0, startTime := 0 }

/-- `destroy()`: `stop()` then `audioContext.close()`. -/
def destroyPlayer (p : PlayerState) : PlayerState :=
  { stopPlayer p with contextClosed := true }

/-- `reset()`: `stop()`, clear retained chunks, restore the default sample
rate. -/
def resetPlayer (p : PlayerState) : PlayerState :=
  { stopPlayer p with audioChunks := [], sampleRate := 22050 }

/-- One `addPCMChunk` call: the chunk data, the sample rate argument, and the
device clock (`audioContext.currentTime`) when the call runs. -/
structure ChunkSubmission where
  data : List ℚ
  rate : ℕ
  now : ℚ
deriving DecidableEq

/-- Run a sequence of `addPCMChunk` calls, collecting the start time each
chunk was scheduled at. -/
def submitAll : PlayerState → List ChunkSubmission → PlayerState × List ℚ
  | p, [] => (p, [])
  | p, s :: rest =>
    let r := addPCMChunk p s.data s.rate s.now
    let q := submitAll r.1 rest
    (q.1, r.2 :: q.2)

/-- Start times the spec's scheduling recurrence predicts: the anchor, then
each successive start is the previous start plus the previous duration. -/
def expectedStarts (t0 : ℚ) : List ℚ → List ℚ
  | [] => []
  | d :: ds => t0 :: expectedStarts (t0 + d) ds

theorem addPCMChunk_playing (p : PlayerState) (hp : p.isPlaying = true)
    (data : List ℚ) (rate : ℕ) (now : ℚ) :
    addPCMChunk p data rate now
      = ({ p with audioChunks := p.audioChunks ++ [data], sampleRate := rate,
                  sources := p.sources + 1,
                  scheduledTime := p.scheduledTime + chunkDuration data rate },
         p.scheduledTime) := by
  simp [addPCMChunk, hp]

theorem submitAll_playing (subs : List ChunkSubmission) :
    ∀ p : PlayerState, p.isPlaying = true →
      (submitAll p subs).2
        = expectedStarts p.scheduledTime (subs.map fun s => chunkDuration s.data s.rate)
      ∧ (submitAll p subs).1.scheduledTime
        = p.scheduledTime + (subs.map fun s => chunkDuration s.data s.rate).sum
      ∧ (submitAll p subs).1.isPlaying = true := by
  induction subs with
  | nil => intro p hp; simp [submitAll, expectedStarts, hp]
  | cons s rest ih =>
    intro p hp
    have hstep := addPCMChunk_playing p hp s.data s.rate s.now
    have hrec := ih ({ p with audioChunks := p.audioChunks ++ [s.data],
                              sampleRate := s.rate, sources := p.sources + 1,
                              scheduledTime := p.scheduledTime + chunkDuration s.data s.rate })
      (by simp [hp])
    simp only [submitAll, hstep] at *
    refine ⟨?_, ?_, hrec.2.2⟩
    · simp [expectedStarts, hrec.1]
    · simp [hrec.2.1]
      ring

/-- Claim C3: starting from a fresh scheduler, the first chunk is scheduled at
the device clock of the first submission plus the fixed 0.1 s lead, and every
later chunk is scheduled exactly at the previous chunk's scheduled end time
(start + sampleCount/sampleRate); the final scheduled end time is the anchor
plus the total duration. The start times depend only on the first
submission's clock reading — the `now` of every later submission is
irrelevant, so wall-clock delays between submissions change nothing. -/
theorem scheduler_gapless (subs : List ChunkSubmission) (hs : subs ≠ []) :
    (submitAll newPlayer subs).2
      = expectedStarts ((subs.head hs).now + 1/10)
          (subs.map fun s => chunkDuration s.data s.rate)
    ∧ (submitAll newPlayer subs).1.scheduledTime
      = (subs.head hs).now + 1/10
        + (subs.map fun s => chunkDuration s.data s.rate).sum := by
  cases subs with
  | nil => exact absurd rfl hs
  | cons s rest =>
    have hpl : (addPCMChunk newPlayer s.data s.rate s.now).1.isPlaying = true := by
      simp [addPCMChunk, newPlayer]
    have hsched : (addPCMChunk newPlayer s.data s.rate s.now).1.scheduledTime
        = s.now + 1/10 + chunkDuration s.data s.rate := by
      simp [addPCMChunk, newPlayer]
    have hstart : (addPCMChunk newPlayer s.data s.rate s.now).2 = s.now + 1/10 := by
      simp [addPCMChunk, newPlayer]
    obtain ⟨h1, h2, h3⟩ :=
      submitAll_playing rest (addPCMChunk newPlayer s.data s.rate s.now).1 hpl
    constructor
    · simp only [submitAll]
      rw [hstart, h1, hsched]
      simp [expectedStarts]
    · simp only [submitAll]
      rw [h2, hsched]
      simp only [List.head_cons, List.map_cons, List.sum_cons]
      ring

/-- Witness for `scheduler_gapless`: three chunks of durations 1/2 s, 3/10 s
and 7/10 s (5, 3 and 7 samples at 10 Hz) submitted at arbitrary wall-clock
times 5, 100 and 777. -/
theorem scheduler_gapless_witness :
    ([⟨List.replicate 5 0, 10, 5⟩, ⟨List.replicate 3 0, 10, 100⟩,
      ⟨List.replicate 7 0, 10, 777⟩] : List ChunkSubmission) ≠ []
    ∧ ((submitAll newPlayer [⟨List.replicate 5 0, 10, 5⟩, ⟨List.replicate 3 0, 10, 100⟩,
          ⟨List.replicate 7 0, 10, 777⟩]).2
        = expectedStarts ((5:ℚ) + 1/10)
            ([⟨List.replicate 5 0, 10, 5⟩, ⟨List.replicate 3 0, 10, 100⟩,
              (⟨List.replicate 7 0, 10, 777⟩ : ChunkSubmission)].map
              fun s => chunkDuration s.data s.rate)
       ∧ (submitAll newPlayer [⟨List.replicate 5 0, 10, 5⟩, ⟨List.replicate 3 0, 10, 100⟩,
            ⟨List.replicate 7 0, 10, 777⟩]).1.scheduledTime
        = (5:ℚ) + 1/10
          + ([⟨List.replicate 5 0, 10, 5⟩, ⟨List.replicate 3 0, 10, 100⟩,
              (⟨List.replicate 7 0, 10, 777⟩ : ChunkSubmission)].map
              fun s => chunkDuration s.data s.rate).sum) :=
  ⟨by simp,
   scheduler_gapless [⟨List.replicate 5 0, 10, 5⟩, ⟨List.replicate 3 0, 10, 100⟩,
     ⟨List.replicate 7 0, 10, 777⟩] (by simp)⟩

/-! ## Streaming narration session (narrateTextStreaming / narrateScriptStreaming,
src/api/endpoints/narration.ts)

The `ws.onmessage` handler is modelled as a step function over a session
state. Messages carry the device-clock time at which they are handled. A
parsed message is one of: an audio message (whose `sample_rate` field may be
missing or 0, both falsy in JS), a `complete` message, a `finalComplete`
message, an `error` message, or a message whose handling throws (malformed
JSON / bad base64), which the catch block treats like an error. A transport
failure (`ws.onerror`) runs the same destroy/close/onError body as an error
message and is covered by `WsMessage.error`.

`finalComplete` starts a `setTimeout`; its callback body (collect, encode,
destroy, close, onComplete) runs only after the wait elapses, so messages
that arrive during the waiting period are handled first: the run function
processes all delivered messages and then fires the pending timer callbacks.
After `ws.close()` has been called the WebSocket delivers no further
messages, so a closed session ignores the rest of the stream; a pending
timer, however, still fires — nothing cancels it. -/

/-- A server→client message as seen by the `ws.onmessage` handler. -/
inductive WsMessage where
  | audio (data : List ℚ) (sampleRate : Option ℕ)
  | complete
  | finalComplete
  | error
  | malformed
deriving DecidableEq

/-- `msg.sample_rate || 22050`: 22050 when the field is absent or 0. -/
def resolveSampleRate : Option ℕ → ℕ
  | none => 22050
  | some r => if r = 0 then 22050 else r

/-- Observable callback/scheduling activity of a session: a chunk handed to
`addPCMChunk`, an `onComplete(wavData)` call (with the wait in seconds the
timer was set to: remaining playback time + 0.1), or an `onError` call. -/
inductive SessionEvent where
  | chunkScheduled (data : List ℚ) (rate : ℕ) (start : ℚ)
  | completed (wait : ℚ) (buffer : List ℕ)
  | errored
deriving DecidableEq

def SessionEvent.isChunkScheduled : SessionEvent → Bool
  | .chunkScheduled _ _ _ => true
  | _ => false

def SessionEvent.isCompleted : SessionEvent → Bool
  | .completed _ _ => true
  | _ => false

/-- `onComplete` or `onError` invocation. -/
def SessionEvent.isCallback : SessionEvent → Bool
  | .chunkScheduled _ _ _ => false
  | _ => true

/-- Session state: the player, whether `ws.close()` has been called, and the
waits of `setTimeout` callbacks scheduled by `finalComplete` handling that
have not yet fired. -/
structure SessionState where
  player : PlayerState
  wsClosed : Bool
  pendingWaits : List ℚ
deriving DecidableEq

/-- State when `narrateTextStreaming`/`narrateScriptStreaming` returns: fresh
player, open socket, no timer. -/
def initialSession : SessionState :=
  { player := newPlayer, wsClosed := false, pendingWaits := [] }

/-- One `ws.onmessage` (or `ws.onerror`) activation at device-clock `now`.
The error branches' `await audioPlayer.destroy()` can only run while the
socket is open, and every reachable open-socket state has an open
`AudioContext` (only teardown paths close it, and they also close the
socket), so `destroy()` succeeds unconditionally here. -/
def processMessage (st : SessionState) (m : WsMessage) (now : ℚ) :
    SessionState × List SessionEvent :=
  if st.wsClosed then (st, [])
  else
    match m with
    | .audio data r =>
        let rate := resolveSampleRate r
        let res := addPCMChunk st.player data rate now
        ({ st with player := res.1 }, [.chunkScheduled data rate res.2])
    | .complete => (st, [])
    | .finalComplete =>
        let remaining := getRemainingPlaybackTime st.player now
        ({ st with pendingWaits := st.pendingWaits ++ [remaining + 1/10] }, [])
    | .error =>
        ({ st with player := destroyPlayer st.player, wsClosed := true }, [.errored])
    | .malformed =>
        ({ st with player := destroyPlayer st.player, wsClosed := true }, [.errored])

/-- The body of the `setTimeout` callback scheduled on `finalComplete`:
collect the audio, encode it at the player's current sample rate, then
`await audioPlayer.destroy(); ws.close(); onComplete(wavData)`. When the
`AudioContext` is already closed (a previous timer or an error handler
destroyed the player), `destroy()`'s synchronous `stop()` still runs but
`audioContext.close()` rejects with `InvalidStateError`, so the `await`
throws inside the async callback and neither `ws.close()` nor `onComplete`
is reached (the rejection is unhandled — no `onError` either). -/
def fireTimer (st : SessionState) (wait : ℚ) : SessionState × List SessionEvent :=
  let wav := encodeWAV (getCollectedAudio st.player) (getSampleRate st.player)
  if st.player.contextClosed then
    ({ st with player := stopPlayer st.player }, [])
  else
    ({ st with player := destroyPlayer st.player, wsClosed := true },
     [.completed wait wav])

def fireTimers : SessionState → List ℚ → SessionState × List SessionEvent
  | st, [] => (st, [])
  | st, w :: ws =>
    let r := fireTimer st w
    let q := fireTimers r.1 ws
    (q.1, r.2 ++ q.2)

def runMessages : SessionState → List (WsMessage × ℚ) → SessionState × List SessionEvent
  | st, [] => (st, [])
  | st, (m, t) :: rest =>
    let r := processMessage st m t
    let q := runMessages r.1 rest
    (q.1, r.2 ++ q.2)

/-- A whole session: handle every delivered message in order, then let the
pending completion timers (if any) fire. -/
def runSession (msgs : List (WsMessage × ℚ)) : SessionState × List SessionEvent :=
  let r := runMessages initialSession msgs
  let q := fireTimers { r.1 with pendingWaits := [] } r.1.pendingWaits
  (q.1, r.2 ++ q.2)

/-- The `cancel` closure returned by both streaming endpoints:
`audioPlayer.stop(); ws.close();` — note `stop`, not `destroy`. -/
def cancelSession (st : SessionState) : SessionState :=
  { st with player := stopPlayer st.player, wsClosed := true }

/-- An audio message delivery: chunk data, the message's `sample_rate` field,
and the device clock when it is handled. -/
structure AudioDescr where
  data : List ℚ
  rate : Option ℕ
  time : ℚ
deriving DecidableEq

def mkAudioMsgs (l : List AudioDescr) : List (WsMessage × ℚ) :=
  l.map fun a => (.audio a.data a.rate, a.time)

theorem addPCMChunk_fields (p : PlayerState) (data : List ℚ) (rate : ℕ) (now : ℚ) :
    (addPCMChunk p data rate now).1.audioChunks = p.audioChunks ++ [data]
    ∧ (addPCMChunk p data rate now).1.sampleRate = rate
    ∧ (addPCMChunk p data rate now).1.contextClosed = p.contextClosed := by
  by_cases h : p.isPlaying <;> simp [addPCMChunk, h]

theorem runMessages_audio (l : List AudioDescr) :
    ∀ st : SessionState, st.wsClosed = false →
      (runMessages st (mkAudioMsgs l)).1.wsClosed = false
      ∧ (runMessages st (mkAudioMsgs l)).1.pendingWaits = st.pendingWaits
      ∧ (runMessages st (mkAudioMsgs l)).1.player.audioChunks
          = st.player.audioChunks ++ l.map (fun a => a.data)
      ∧ (runMessages st (mkAudioMsgs l)).1.player.sampleRate
          = (l.map fun a => resolveSampleRate a.rate).getLastD st.player.sampleRate
      ∧ (runMessages st (mkAudioMsgs l)).1.player.contextClosed = st.player.contextClosed
      ∧ (runMessages st (mkAudioMsgs l)).2.all SessionEvent.isChunkScheduled = true := by
  induction l with
  | nil => intro st h; simp [mkAudioMsgs, runMessages, h]
  | cons a rest ih =>
    intro st h
    have hf := addPCMChunk_fields st.player a.data (resolveSampleRate a.rate) a.time
    have hstep : processMessage st (.audio a.data a.rate) a.time
        = ({ st with player := (addPCMChunk st.player a.data (resolveSampleRate a.rate) a.time).1 },
           [.chunkScheduled a.data (resolveSampleRate a.rate)
             (addPCMChunk st.player a.data (resolveSampleRate a.rate) a.time).2]) := by
      simp [processMessage, h]
    have hrec := ih
      { st with player := (addPCMChunk st.player a.data (resolveSampleRate a.rate) a.time).1 }
      (by simpa using h)
    simp only [mkAudioMsgs, List.map_cons, runMessages] at hrec ⊢
    rw [hstep]
    refine ⟨hrec.1, hrec.2.1, ?_, ?_, ?_, ?_⟩
    · rw [hrec.2.2.1]
      simp [hf.1]
    · rw [hrec.2.2.2.1, hf.2.1, List.getLastD_cons]
    · rw [hrec.2.2.2.2.1]
      exact hf.2.2
    · simp [SessionEvent.isChunkScheduled, hrec.2.2.2.2.2]

theorem runMessages_append (a b : List (WsMessage × ℚ)) :
    ∀ st, runMessages st (a ++ b)
      = ((runMessages (runMessages st a).1 b).1,
         (runMessages st a).2 ++ (runMessages (runMessages st a).1 b).2) := by
  induction a with
  | nil => intro st; simp [runMessages]
  | cons p rest ih =>
    intro st
    cases p with
    | mk m t => simp [runMessages, ih]

/-- The three message kinds that tear the session down (or start teardown):
`finalComplete`, a server `error` message, and a message whose handling
throws (treated like an error by the catch block / `ws.onerror`). -/
inductive TerminalMsg where
  | fin
  | err
  | mal
deriving DecidableEq

def TerminalMsg.toMsg : TerminalMsg → WsMessage
  | .fin => .finalComplete
  | .err => .error
  | .mal => .malformed

theorem getLastD_map {α β : Type} (f : α → β) (l : List α) (d : α) :
    (l.map f).getLastD (f d) = f (l.getLastD d) := by
  induction l generalizing d with
  | nil => simp
  | cons a rest ih => simp only [List.map_cons, List.getLastD_cons, ih]

/-- The terminal event a session run ends with: `onComplete` (with the wait
and encoded buffer determined by the state after the audio prefix `l` was
handled at clock `t`) for `finalComplete`, `onError` for the other two. -/
def terminalEvent (l : List AudioDescr) (tm : TerminalMsg) (t : ℚ) : SessionEvent :=
  match tm with
  | .fin => .completed
      (getRemainingPlaybackTime (runMessages initialSession (mkAudioMsgs l)).1.player t + 1/10)
      (encodeWAV (l.map fun a => a.data).flatten
        ((l.map fun a => resolveSampleRate a.rate).getLastD 22050))
  | .err => .errored
  | .mal => .errored

theorem runSession_shape (l : List AudioDescr) (tm : TerminalMsg) (t : ℚ) :
    (runSession (mkAudioMsgs l ++ [(tm.toMsg, t)])).2
      = (runMessages initialSession (mkAudioMsgs l)).2 ++ [terminalEvent l tm t]
    ∧ (runSession (mkAudioMsgs l ++ [(tm.toMsg, t)])).1.player.contextClosed = true
    ∧ (runSession (mkAudioMsgs l ++ [(tm.toMsg, t)])).1.wsClosed = true := by
  obtain ⟨hws, hpw, hchunks, hrate, hctx, hall⟩ :=
    runMessages_audio l initialSession rfl
  have hinit : initialSession.player.audioChunks = [] := rfl
  have hinitrate : initialSession.player.sampleRate = 22050 := rfl
  have hinitpw : initialSession.pendingWaits = [] := rfl
  rw [hinit] at hchunks
  rw [hinitrate] at hrate
  rw [hinitpw] at hpw
  simp only [List.nil_append] at hchunks
  cases tm with
  | fin =>
    simp only [runSession, TerminalMsg.toMsg, runMessages_append]
    rw [show runMessages (runMessages initialSession (mkAudioMsgs l)).1 [(.finalComplete, t)]
          = (({ (runMessages initialSession (mkAudioMsgs l)).1 with
                pendingWaits :=
                  (runMessages initialSession (mkAudioMsgs l)).1.pendingWaits ++
                    [getRemainingPlaybackTime (runMessages initialSession (mkAudioMsgs l)).1.player t
                      + 1/10] }), [])
        from by simp [runMessages, processMessage, hws]]
    have hctxf : (runMessages initialSession (mkAudioMsgs l)).1.player.contextClosed
        = false := by
      rw [hctx]
      rfl
    simp only [hpw, List.nil_append, fireTimers, fireTimer, terminalEvent]
    refine ⟨?_, ?_, ?_⟩
    · simp [hctxf, getCollectedAudio, getSampleRate, hchunks, hrate]
    · simp [hctxf, destroyPlayer, stopPlayer]
    · simp [hctxf]
  | err =>
    simp only [runSession, TerminalMsg.toMsg, runMessages_append]
    rw [show runMessages (runMessages initialSession (mkAudioMsgs l)).1 [(.error, t)]
          = (({ (runMessages initialSession (mkAudioMsgs l)).1 with
                player := destroyPlayer (runMessages initialSession (mkAudioMsgs l)).1.player,
                wsClosed := true }), [.errored])
        from by simp [runMessages, processMessage, hws]]
    simp only [hpw, fireTimers, terminalEvent]
    refine ⟨by simp, by simp [destroyPlayer, stopPlayer], by simp⟩
  | mal =>
    simp only [runSession, TerminalMsg.toMsg, runMessages_append]
    rw [show runMessages (runMessages initialSession (mkAudioMsgs l)).1 [(.malformed, t)]
          = (({ (runMessages initialSession (mkAudioMsgs l)).1 with
                player := destroyPlayer (runMessages initialSession (mkAudioMsgs l)).1.player,
                wsClosed := true }), [.errored])
        from by simp [runMessages, processMessage, hws]]
    simp only [hpw, fireTimers, terminalEvent]
    refine ⟨by simp, by simp [destroyPlayer, stopPlayer], by simp⟩

theorem countP_chunk_events (es : List SessionEvent)
    (h : es.all SessionEvent.isChunkScheduled = true) :
    es.countP SessionEvent.isCallback = 0 ∧ es.countP SessionEvent.isCompleted = 0 := by
  induction es with
  | nil => simp
  | cons e rest ih =>
    simp only [List.all_cons, Bool.and_eq_true] at h
    have he : SessionEvent.isCallback e = false ∧ SessionEvent.isCompleted e = false := by
      cases e <;> simp_all [SessionEvent.isChunkScheduled, SessionEvent.isCallback,
        SessionEvent.isCompleted]
    obtain ⟨ih1, ih2⟩ := ih h.2
    simp [List.countP_cons, he.1, he.2, ih1, ih2]

theorem getLastD_resolve (l : List AudioDescr) (hl : l ≠ []) (d : ℕ) :
    (l.map fun a => resolveSampleRate a.rate).getLastD d
      = resolveSampleRate (l.getLast hl).rate := by
  rw [List.getLastD_eq_getLast?, List.getLast?_map, List.getLast?_eq_getLast l hl]
  rfl

/-- Claim C1: a session that receives a non-empty sequence of audio chunks and
then the terminal completion message fires `onComplete` exactly once; the
timer waits the scheduler's remaining playback time at the moment completion
was received plus the fixed 0.1 s margin, and the buffer passed to
`onComplete` is exactly `encodeWAV` of the concatenation of all received
chunks in arrival order at the (resolved) sample rate of the most recently
received chunk. -/
theorem session_completion_spec (l : List AudioDescr) (hl : l ≠ []) (t : ℚ) :
    (runSession (mkAudioMsgs l ++ [(.finalComplete, t)])).2.countP
        SessionEvent.isCompleted = 1
    ∧ (runSession (mkAudioMsgs l ++ [(.finalComplete, t)])).2.getLast?
      = some (.completed
          (getRemainingPlaybackTime
            (runMessages initialSession (mkAudioMsgs l)).1.player t + 1/10)
          (encodeWAV (l.map fun a => a.data).flatten
            (resolveSampleRate (l.getLast hl).rate))) := by
  obtain ⟨hev, hctx, hws⟩ := runSession_shape l .fin t
  simp only [TerminalMsg.toMsg] at hev
  obtain ⟨h1, h2, h3, h4, h5, hall⟩ := runMessages_audio l initialSession rfl
  obtain ⟨hc0, hc1⟩ := countP_chunk_events _ hall
  constructor
  · rw [hev]
    simp [List.countP_append, hc1, terminalEvent, SessionEvent.isCompleted, List.countP_cons]
  · rw [hev, List.getLast?_concat]
    simp only [terminalEvent, getLastD_resolve l hl]

/-- Witness for `session_completion_spec`: one chunk of one sample at
8000 Hz delivered at clock 0, completion received at clock 2. -/
theorem session_completion_spec_witness :
    ([⟨[(1:ℚ)/2], some 8000, 0⟩] : List AudioDescr) ≠ []
    ∧ ((runSession (mkAudioMsgs [⟨[(1:ℚ)/2], some 8000, 0⟩]
          ++ [(.finalComplete, 2)])).2.countP SessionEvent.isCompleted = 1
      ∧ (runSession (mkAudioMsgs [⟨[(1:ℚ)/2], some 8000, 0⟩]
          ++ [(.finalComplete, 2)])).2.getLast?
        = some (.completed
            (getRemainingPlaybackTime
              (runMessages initialSession
                (mkAudioMsgs [⟨[(1:ℚ)/2], some 8000, 0⟩])).1.player 2 + 1/10)
            (encodeWAV ([⟨[(1:ℚ)/2], some 8000, 0⟩].map fun (a : AudioDescr) => a.data).flatten
              (resolveSampleRate
                (([⟨[(1:ℚ)/2], some 8000, 0⟩] : List AudioDescr).getLast (by simp)).rate)))) :=
  ⟨by simp, session_completion_spec [⟨[(1:ℚ)/2], some 8000, 0⟩] (by simp) 2⟩

/-- Claim C4 counterexample: a session that receives an audio chunk and then
a `{type: "complete"}` message never fires `onComplete` — the handler in
`narrateTextStreaming`/`narrateScriptStreaming` only matches
`"finalComplete"`, so `"complete"` falls through every branch and is
silently ignored. -/
theorem complete_message_ignored :
    (runSession [(.audio [1/2] (some 8000), 0), (.complete, 1)]).2.countP
        SessionEvent.isCompleted = 0
    ∧ (runSession [(.audio [1/2] (some 8000), 0), (.complete, 1)]).1.player.contextClosed
        = false := by
  constructor <;> rfl

/-- Claim C4 (amended): of the two terminal message names, only
`{type: "finalComplete"}` triggers the completion flow; `{type: "complete"}`
is a no-op (state unchanged, no event), and a session receiving chunks and
then `complete` never completes, while the same session receiving
`finalComplete` instead completes exactly once. -/
theorem terminal_message_handling :
    (∀ (st : SessionState) (t : ℚ), st.wsClosed = false →
        processMessage st .complete t = (st, []))
    ∧ (∀ (l : List AudioDescr) (t : ℚ),
        (runSession (mkAudioMsgs l ++ [(.complete, t)])).2.countP
            SessionEvent.isCompleted = 0)
    ∧ (∀ (l : List AudioDescr) (t : ℚ),
        (runSession (mkAudioMsgs l ++ [(.finalComplete, t)])).2.countP
            SessionEvent.isCompleted = 1) := by
  refine ⟨fun st t h => by simp [processMessage, h], fun l t => ?_, fun l t => ?_⟩
  · obtain ⟨hws, hpw, _, _, _, hall⟩ := runMessages_audio l initialSession rfl
    obtain ⟨hc0, hc1⟩ := countP_chunk_events _ hall
    have hrun : runMessages initialSession (mkAudioMsgs l ++ [(.complete, t)])
        = ((runMessages initialSession (mkAudioMsgs l)).1,
           (runMessages initialSession (mkAudioMsgs l)).2) := by
      rw [runMessages_append]
      simp [runMessages, processMessage, hws]
    simp only [runSession, hrun, hpw]
    simp only [show initialSession.pendingWaits = [] from rfl, fireTimers]
    simp [List.countP_append, hc1]
  · obtain ⟨hev, _, _⟩ := runSession_shape l .fin t
    simp only [TerminalMsg.toMsg] at hev
    obtain ⟨_, _, _, _, _, hall⟩ := runMessages_audio l initialSession rfl
    obtain ⟨hc0, hc1⟩ := countP_chunk_events _ hall
    rw [hev]
    simp [List.countP_append, hc1, terminalEvent, SessionEvent.isCompleted, List.countP_cons]

/-- Claim C5 counterexample: an audio chunk delivered after the terminal
completion message — i.e. during the waiting period between receipt of
`finalComplete` and the invocation of `onComplete` — is still decoded and
submitted to the scheduler (the `ws.onmessage` handler keeps running until
the timer's `ws.close()`), and `onComplete` then fires; the claim asserts
such messages are not processed. -/
theorem chunk_processed_during_wait :
    (runSession [(.finalComplete, 0), (.audio [1/2] (some 8000), 1)]).2.countP
        SessionEvent.isChunkScheduled = 1
    ∧ (runSession [(.finalComplete, 0), (.audio [1/2] (some 8000), 1)]).2.countP
        SessionEvent.isCompleted = 1 := by
  constructor <;> rfl

theorem pairwise_no_chunk_after_callback (es : List SessionEvent)
    (h : ∀ e ∈ es, SessionEvent.isCallback e = false) :
    es.Pairwise (fun a b =>
      SessionEvent.isCallback a = true → SessionEvent.isChunkScheduled b = false) := by
  induction es with
  | nil => exact List.Pairwise.nil
  | cons e rest ih =>
    refine List.Pairwise.cons ?_ (ih fun x hx => h x (List.mem_cons_of_mem e hx))
    intro b hb hcb
    exact absurd hcb (by simp [h e (List.mem_cons_self e rest)])

theorem no_callback_of_all_chunk (es : List SessionEvent)
    (h : es.all SessionEvent.isChunkScheduled = true) :
    ∀ e ∈ es, SessionEvent.isCallback e = false := by
  intro e he
  have := List.all_eq_true.mp h e he
  cases e <;> simp_all [SessionEvent.isChunkScheduled, SessionEvent.isCallback]

theorem processMessage_closed (st : SessionState) (m : WsMessage) (t : ℚ)
    (h : st.wsClosed = true) : processMessage st m t = (st, []) := by
  simp [processMessage, h]

theorem runMessages_closed (msgs : List (WsMessage × ℚ)) :
    ∀ st, st.wsClosed = true → runMessages st msgs = (st, []) := by
  induction msgs with
  | nil => intro st h; rfl
  | cons p rest ih =>
    intro st h
    obtain ⟨m, t⟩ := p
    simp [runMessages, processMessage_closed st m t h, ih st h]

/-- Structure of the message-handling phase from any open state: either no
error occurred — every event is a scheduled chunk and socket and device stay
open — or the events are scheduled chunks followed by a single `onError`,
after which socket and device are closed (and no later message is
processed). -/
theorem runMessages_structure (msgs : List (WsMessage × ℚ)) :
    ∀ st : SessionState, st.wsClosed = false → st.player.contextClosed = false →
      ((runMessages st msgs).2.all SessionEvent.isChunkScheduled = true
        ∧ (runMessages st msgs).1.wsClosed = false
        ∧ (runMessages st msgs).1.player.contextClosed = false)
      ∨ (∃ pre, (runMessages st msgs).2 = pre ++ [.errored]
        ∧ pre.all SessionEvent.isChunkScheduled = true
        ∧ (runMessages st msgs).1.player.contextClosed = true) := by
  induction msgs with
  | nil => intro st h1 h2; exact Or.inl ⟨rfl, h1, h2⟩
  | cons p rest ih =>
    intro st h1 h2
    obtain ⟨m, t⟩ := p
    cases m with
    | audio data r =>
      have hstep : processMessage st (.audio data r) t
          = ({ st with player := (addPCMChunk st.player data (resolveSampleRate r) t).1 },
             [.chunkScheduled data (resolveSampleRate r)
               (addPCMChunk st.player data (resolveSampleRate r) t).2]) := by
        simp [processMessage, h1]
      have hf := addPCMChunk_fields st.player data (resolveSampleRate r) t
      have hrec := ih
        { st with player := (addPCMChunk st.player data (resolveSampleRate r) t).1 }
        (by simpa using h1) (by simpa using hf.2.2.trans h2)
      simp only [runMessages, hstep]
      rcases hrec with ⟨ha, hw, hc⟩ | ⟨pre, hpre, hap, hc⟩
      · exact Or.inl ⟨by simp [SessionEvent.isChunkScheduled, ha], hw, hc⟩
      · refine Or.inr ⟨.chunkScheduled data (resolveSampleRate r)
          (addPCMChunk st.player data (resolveSampleRate r) t).2 :: pre, ?_, ?_, hc⟩
        · simp [hpre]
        · simp [SessionEvent.isChunkScheduled, hap]
    | complete =>
      have hstep : processMessage st .complete t = (st, []) := by
        simp [processMessage, h1]
      simp only [runMessages, hstep]
      simpa using ih st h1 h2
    | finalComplete =>
      have hstep : processMessage st .finalComplete t
          = ({ st with pendingWaits :=
                st.pendingWaits ++ [getRemainingPlaybackTime st.player t + 1/10] }, []) := by
        simp [processMessage, h1]
      simp only [runMessages, hstep]
      simpa using ih
        { st with pendingWaits :=
            st.pendingWaits ++ [getRemainingPlaybackTime st.player t + 1/10] }
        (by simpa using h1) (by simpa using h2)
    | error =>
      have hstep : processMessage st .error t
          = ({ st with player := destroyPlayer st.player, wsClosed := true },
             [.errored]) := by
        simp [processMessage, h1]
      simp only [runMessages, hstep,
        runMessages_closed rest
          { st with player := destroyPlayer st.player, wsClosed := true } rfl]
      exact Or.inr ⟨[], rfl, rfl, by simp [destroyPlayer, stopPlayer]⟩
    | malformed =>
      have hstep : processMessage st .malformed t
          = ({ st with player := destroyPlayer st.player, wsClosed := true },
             [.errored]) := by
        simp [processMessage, h1]
      simp only [runMessages, hstep,
        runMessages_closed rest
          { st with player := destroyPlayer st.player, wsClosed := true } rfl]
      exact Or.inr ⟨[], rfl, rfl, by simp [destroyPlayer, stopPlayer]⟩

/-- With the device already closed, every pending timer's `destroy()`
rejects: no event is produced and the context stays closed. -/
theorem fireTimers_closed (ws : List ℚ) :
    ∀ st : SessionState, st.player.contextClosed = true →
      (fireTimers st ws).2 = [] ∧ (fireTimers st ws).1.player.contextClosed = true := by
  induction ws with
  | nil => intro st h; exact ⟨rfl, h⟩
  | cons w rest ih =>
    intro st h
    have hft : fireTimer st w = ({ st with player := stopPlayer st.player }, []) := by
      simp [fireTimer, h]
    have hrec := ih { st with player := stopPlayer st.player } (by simpa [stopPlayer] using h)
    simp [fireTimers, hft, hrec.1, hrec.2]

/-- With the device open, the first pending timer completes (and closes the
device), and every later timer rejects: at most one `onComplete`. -/
theorem fireTimers_open (ws : List ℚ) (st : SessionState)
    (h : st.player.contextClosed = false) :
    (fireTimers st ws).2 = []
    ∨ ∃ w wav, (fireTimers st ws).2 = [.completed w wav] := by
  cases ws with
  | nil => exact Or.inl rfl
  | cons w rest =>
    have hft : fireTimer st w
        = ({ st with player := destroyPlayer st.player, wsClosed := true },
           [.completed w (encodeWAV (getCollectedAudio st.player) (getSampleRate st.player))]) := by
      simp [fireTimer, h]
    have hcl := fireTimers_closed rest
      { st with player := destroyPlayer st.player, wsClosed := true }
      (by simp [destroyPlayer, stopPlayer])
    refine Or.inr ⟨w, encodeWAV (getCollectedAudio st.player) (getSampleRate st.player), ?_⟩
    simp [fireTimers, hft, hcl.1]

/-- Claim C5 (amended): for every session and every delivered message
sequence, `onComplete`/`onError` together fire at most once (a second
`finalComplete` timer's `destroy()` rejects on the already-closed context and
skips its `onComplete`; after an error the socket is closed and any pending
timer rejects likewise), and no chunk is decoded or submitted after either
callback has fired. However — against the claim's parenthetical — audio
messages that arrive during the waiting period between the terminal
completion message and `onComplete` ARE still decoded and submitted, before
`onComplete` fires. -/
theorem callbacks_at_most_once (msgs : List (WsMessage × ℚ)) :
    ((runSession msgs).2.countP SessionEvent.isCallback) ≤ 1
    ∧ (runSession msgs).2.Pairwise
        (fun a b =>
          SessionEvent.isCallback a = true → SessionEvent.isChunkScheduled b = false) := by
  rcases runMessages_structure msgs initialSession rfl rfl with
    ⟨hall, hws, hctx⟩ | ⟨pre, hpre, hap, hctx⟩
  · have hnc := no_callback_of_all_chunk _ hall
    have hc := countP_chunk_events _ hall
    have hopen : ({ (runMessages initialSession msgs).1 with pendingWaits := [] }
        : SessionState).player.contextClosed = false := by simpa using hctx
    rcases fireTimers_open (runMessages initialSession msgs).1.pendingWaits _ hopen with
      he | ⟨w, wav, he⟩
    · simp only [runSession, he, List.append_nil]
      exact ⟨by simp [hc.1], pairwise_no_chunk_after_callback _ hnc⟩
    · simp only [runSession, he]
      constructor
      · simp [List.countP_append, hc.1, List.countP_cons, SessionEvent.isCallback]
      · rw [List.pairwise_append]
        refine ⟨pairwise_no_chunk_after_callback _ hnc, by simp, ?_⟩
        intro a ha b hb hcb
        exact absurd hcb (by simp [hnc a ha])
  · have hncpre := no_callback_of_all_chunk _ hap
    have hcpre := countP_chunk_events _ hap
    have hcl := fireTimers_closed (runMessages initialSession msgs).1.pendingWaits
      { (runMessages initialSession msgs).1 with pendingWaits := [] } (by simpa using hctx)
    simp only [runSession, hcl.1, List.append_nil, hpre]
    constructor
    · simp [List.countP_append, hcpre.1, List.countP_cons, SessionEvent.isCallback]
    · rw [List.pairwise_append]
      refine ⟨pairwise_no_chunk_after_callback _ hncpre, by simp, ?_⟩
      intro a ha b hb hcb
      exact absurd hcb (by simp [hncpre a ha])


/-- Claim C9 counterexample: after one audio chunk has arrived, invoking the
returned `cancel` closure (`audioPlayer.stop(); ws.close();`) leaves the
player's `AudioContext` open — `stop()` never calls `audioContext.close()`,
and `cancel` never calls `destroy()`, so the device handle is not released. -/
theorem cancel_leaves_device_open :
    (cancelSession
        (runMessages initialSession (mkAudioMsgs [⟨[1/2], some 8000, 0⟩])).1).player.contextClosed
      = false
    ∧ (cancelSession
        (runMessages initialSession (mkAudioMsgs [⟨[1/2], some 8000, 0⟩])).1).player.isPlaying
      = false := by
  constructor <;> rfl

/-- Claim C9 (amended): on the normal-completion exit path and on the error
exit paths (server error message, malformed message / transport failure) the
session closes the audio output device (`audioPlayer.destroy()` closes the
`AudioContext`); `cancel()` stops the scheduler and closes the channel but
does not close the device. -/
theorem device_release_on_exit (pre : List AudioDescr) (tm : TerminalMsg) (t : ℚ) :
    (runSession (mkAudioMsgs pre ++ [(tm.toMsg, t)])).1.player.contextClosed = true
    ∧ (runSession (mkAudioMsgs pre ++ [(tm.toMsg, t)])).1.wsClosed = true
    ∧ (∀ st : SessionState,
        (cancelSession st).player.contextClosed = st.player.contextClosed
        ∧ (cancelSession st).player.isPlaying = false
        ∧ (cancelSession st).wsClosed = true) := by
  obtain ⟨_, hctx, hws⟩ := runSession_shape pre tm t
  exact ⟨hctx, hws, fun st => ⟨rfl, rfl, rfl⟩⟩

/-- Claim C10: an audio message whose `sample_rate` field is absent or 0 is
not rejected: the chunk is appended and scheduled at the default 22050 Hz
(`msg.sample_rate || 22050`), and 22050 Hz is also the rate a fresh player
reports and the rate restored by `reset()`. -/
theorem default_sample_rate (st : SessionState) (h : st.wsClosed = false)
    (data : List ℚ) (t : ℚ) (r : Option ℕ) (hr : r = none ∨ r = some 0) :
    (processMessage st (.audio data r) t).1.player.audioChunks
        = st.player.audioChunks ++ [data]
    ∧ (processMessage st (.audio data r) t).1.player.sampleRate = 22050
    ∧ (∃ s, (processMessage st (.audio data r) t).2 = [.chunkScheduled data 22050 s])
    ∧ getSampleRate newPlayer = 22050
    ∧ (∀ p, getSampleRate (resetPlayer p) = 22050) := by
  have hres : resolveSampleRate r = 22050 := by
    rcases hr with h0 | h0 <;> simp [h0, resolveSampleRate]
  have hf := addPCMChunk_fields st.player data (resolveSampleRate r) t
  have hstep : processMessage st (.audio data r) t
      = ({ st with player := (addPCMChunk st.player data (resolveSampleRate r) t).1 },
         [.chunkScheduled data (resolveSampleRate r)
           (addPCMChunk st.player data (resolveSampleRate r) t).2]) := by
    simp [processMessage, h]
  refine ⟨?_, ?_, ?_, rfl, fun p => rfl⟩
  · rw [hstep]
    exact hf.1
  · rw [hstep]
    rw [show ({ st with player := (addPCMChunk st.player data (resolveSampleRate r) t).1 }
        : SessionState).player = (addPCMChunk st.player data (resolveSampleRate r) t).1
      from rfl]
    rw [hf.2.1, hres]
  · exact ⟨(addPCMChunk st.player data (resolveSampleRate r) t).2, by rw [hstep, hres]⟩

/-- Witness for `default_sample_rate`: the initial session, a one-sample
chunk at clock 0 with the `sample_rate` field absent. -/
theorem default_sample_rate_witness :
    (initialSession.wsClosed = false ∧ ((none : Option ℕ) = none ∨ (none : Option ℕ) = some 0))
    ∧ ((processMessage initialSession (.audio [(1:ℚ)] none) 0).1.player.audioChunks
          = initialSession.player.audioChunks ++ [[(1:ℚ)]]
      ∧ (processMessage initialSession (.audio [(1:ℚ)] none) 0).1.player.sampleRate = 22050
      ∧ (∃ s, (processMessage initialSession (.audio [(1:ℚ)] none) 0).2
            = [.chunkScheduled [(1:ℚ)] 22050 s])
      ∧ getSampleRate newPlayer = 22050
      ∧ (∀ p, getSampleRate (resetPlayer p) = 22050)) :=
  ⟨⟨rfl, Or.inl rfl⟩,
   default_sample_rate initialSession rfl [(1:ℚ)] 0 none (Or.inl rfl)⟩

/-! ## Script model (src/utils/scriptParser.ts)

Strings are processed through explicit character-list helpers mirroring the
JS string operations (`trim`, `startsWith`, `endsWith`, the character-tag
regex), so that everything evaluates. `parseScriptContent` takes the line
list `content.split("\n")`. -/

/-- Whitespace for `String.prototype.trim`: the ECMAScript WhiteSpace and
LineTerminator sets — TAB, LF, VT, FF, CR, SP, NBSP, OGHAM SPACE MARK, the
U+2000–U+200A spaces, LS, PS, NARROW NBSP, MMSP, IDEOGRAPHIC SPACE and
ZWNBSP. -/
def jsWhitespace (c : Char) : Bool :=
  c.toNat == 0x0009 || c.toNat == 0x000A || c.toNat == 0x000B || c.toNat == 0x000C
  || c.toNat == 0x000D || c.toNat == 0x0020 || c.toNat == 0x00A0 || c.toNat == 0x1680
  || (decide (0x2000 ≤ c.toNat) && decide (c.toNat ≤ 0x200A))
  || c.toNat == 0x2028 || c.toNat == 0x2029 || c.toNat == 0x202F || c.toNat == 0x205F
  || c.toNat == 0x3000 || c.toNat == 0xFEFF

def trimLeftChars : List Char → List Char
  | [] => []
  | c :: cs => if jsWhitespace c then trimLeftChars cs else c :: cs

/-- `line.trim()`. -/
def trimChars (cs : List Char) : List Char :=
  (trimLeftChars (trimLeftChars cs).reverse).reverse

/-- The `/^\[([^\]]+)\]$/` character-tag match on a trimmed line: leading
`[`, trailing `]`, non-empty inner text with no `]`; the captured name is
trimmed. -/
def charTag (t : List Char) : Option (List Char) :=
  if t.head? = some '[' ∧ t.getLast? = some ']' ∧ 3 ≤ t.length then
    let inner := (t.drop 1).dropLast
    if inner.contains ']' then none else some (trimChars inner)
  else none

/-- A parsed dialogue line (interface `ScriptLine`). -/
structure ScriptLine where
  character : String
  text : String
  lineNumber : ℕ
deriving DecidableEq

/-- The line loop of `parseScriptContent`: skip blank lines, markdown
headers, horizontal rules and fully-italicized lines; a character tag sets
the current character; any other line is a dialogue line attributed to the
current character with a 1-based dialogue line number — or, when no
character tag has been seen yet (or the current character name trimmed to
the empty string, which is falsy), is skipped. -/
def parseScriptAux : Option String → ℕ → List String → List ScriptLine
  | _, _, [] => []
  | cur, n, line :: ls =>
    let t := trimChars line.data
    if t = [] then parseScriptAux cur n ls
    else if t.head? = some '#' then parseScriptAux cur n ls
    else if t = ['-', '-', '-'] then parseScriptAux cur n ls
    else if t.head? = some '*' ∧ t.getLast? = some '*' then parseScriptAux cur n ls
    else
      match charTag t with
      | some name => parseScriptAux (some (String.mk name)) n ls
      | none =>
        match cur with
        | some c =>
          -- `if (currentCharacter && ...)`: a character name that trimmed to
          -- the empty string is falsy in JS, so its dialogue is skipped too.
          if c = "" then parseScriptAux (some c) n ls
          else { character := c, text := String.mk t, lineNumber := n + 1 }
            :: parseScriptAux (some c) (n + 1) ls
        | none => parseScriptAux none n ls

/-- Search for the closing `---` fence (`/\n---\n/` after the opening
fence): the first later line that is exactly `---` and is not the final line
(the regex requires the newline after it). Returns the lines after it. -/
def closeFrontmatter : List String → Option (List String)
  | [] => none
  | [_] => none
  | l :: ls => if l = "---" then some ls else closeFrontmatter ls

/-- `content.match(/^---\n.*?\n---\n/s)` on the split line list: when the
document opens with a `---` line and a closing fence exists at line index
≥ 2, drop everything through the closing fence; otherwise leave the content
unchanged. -/
def stripFrontmatter : List String → List String
  | [] => []
  | l0 :: rest =>
    if l0 = "---" then
      match rest with
      | [] => [l0]
      | _ :: rrest =>
        match closeFrontmatter rrest with
        | some after => after
        | none => l0 :: rest
    else l0 :: rest

/-- `parseScriptContent(content)` over `content.split("\n")`. -/
def parseScriptContent (lines : List String) : List ScriptLine :=
  parseScriptAux none 0 (stripFrontmatter lines)

/-- `voiceMap[character]` on the JS object, as an association-list lookup. -/
def lookupVoice (vm : List (String × String)) (c : String) : Option String :=
  (vm.find? fun p => p.1 == c).map fun p => p.2

/-- `!voiceMap[character]`: absent, or mapped to the empty string (both
falsy). -/
def voiceFalsy (vm : List (String × String)) (c : String) : Bool :=
  match lookupVoice vm c with
  | none => true
  | some v => v == ""

/-- `new Set(...)` over the script's characters, in insertion
(first-occurrence) order. -/
def uniqueCharacters (lines : List ScriptLine) : List String :=
  lines.foldl (fun acc l => if l.character ∈ acc then acc else acc ++ [l.character]) []

def joinComma : List String → String
  | [] => ""
  | [s] => s
  | s :: rest => s ++ ", " ++ joinComma rest

/-- Result of `validateScriptVoices`. -/
structure ScriptValidationResult where
  isValid : Bool
  errors : List String
  warnings : List String
  unmappedCharacters : List String
deriving DecidableEq

/-- `validateScriptVoices(scriptLines, voiceMap, defaultVoice)`: error and
early return on an empty script; collect unmapped characters; push TWO
warning strings when any character is unmapped; error when the default voice
is empty/blank; `isValid` iff no error. -/
def validateScriptVoices (scriptLines : List ScriptLine)
    (voiceMap : List (String × String)) (defaultVoice : String) :
    ScriptValidationResult :=
  if scriptLines.isEmpty then
    { isValid := false, errors := ["Script contains no dialogue lines"],
      warnings := [], unmappedCharacters := [] }
  else
    let unmapped := (uniqueCharacters scriptLines).filter (voiceFalsy voiceMap)
    let warnings :=
      if unmapped.isEmpty then []
      else [toString unmapped.length
              ++ " character(s) have no voice assignment: " ++ joinComma unmapped,
            "These characters will use the default voice: " ++ defaultVoice]
    let errors :=
      if defaultVoice == "" || trimChars defaultVoice.data == [] then
        ["No default voice configured in settings"]
      else []
    { isValid := errors.isEmpty, errors := errors, warnings := warnings,
      unmappedCharacters := unmapped }

/-- Claim C6 counterexample: the dialogue line `Hello` appearing before any
character tag is simply absent from the parse result, and validation of the
parsed script reports no error at all (`isValid = true`, `errors = []`) —
the line is silently dropped, not a validation error. -/
theorem unattributed_line_dropped :
    parseScriptContent ["Hello", "[BOB]", "Yo"]
      = [{ character := "BOB", text := "Yo", lineNumber := 1 }]
    ∧ (validateScriptVoices (parseScriptContent ["Hello", "[BOB]", "Yo"])
        [("BOB", "fable")] "alloy").errors = []
    ∧ (validateScriptVoices (parseScriptContent ["Hello", "[BOB]", "Yo"])
        [("BOB", "fable")] "alloy").isValid = true := by
  refine ⟨by decide, by decide, by decide⟩

/-- Claim C6 (amended): a non-blank, non-header, non-rule, non-italic,
non-tag line occurring while no character tag has been seen is silently
skipped by `parseScriptContent` — the parse result is exactly that of the
remaining lines, with no error recorded anywhere (the only error the
pipeline can produce for it is the generic no-dialogue error when the whole
script ends up with zero dialogue lines). -/
theorem dialogue_before_tag_skipped (line : String) (rest : List String)
    (h0 : trimChars line.data ≠ [])
    (h1 : (trimChars line.data).head? ≠ some '#')
    (h2 : trimChars line.data ≠ ['-', '-', '-'])
    (h3 : ¬((trimChars line.data).head? = some '*'
          ∧ (trimChars line.data).getLast? = some '*'))
    (h4 : charTag (trimChars line.data) = none) :
    parseScriptContent (line :: rest) = parseScriptAux none 0 rest := by
  have h5 : line ≠ "---" := by
    intro he
    apply h2
    rw [he]
    rfl
  simp only [parseScriptContent, stripFrontmatter]
  rw [if_neg h5]
  simp only [parseScriptAux]
  rw [if_neg h0, if_neg h1, if_neg h2, if_neg h3, h4]

/-- Witness for `dialogue_before_tag_skipped` at the `Hello` line. -/
theorem dialogue_before_tag_skipped_witness :
    (trimChars "Hello".data ≠ []
      ∧ (trimChars "Hello".data).head? ≠ some '#'
      ∧ trimChars "Hello".data ≠ ['-', '-', '-']
      ∧ ¬((trimChars "Hello".data).head? = some '*'
          ∧ (trimChars "Hello".data).getLast? = some '*')
      ∧ charTag (trimChars "Hello".data) = none)
    ∧ parseScriptContent ["Hello", "[BOB]", "Yo"]
        = parseScriptAux none 0 ["[BOB]", "Yo"] :=
  ⟨⟨by decide, by decide, by decide, by decide, by decide⟩,
   dialogue_before_tag_skipped "Hello" ["[BOB]", "Yo"]
     (by decide) (by decide) (by decide) (by decide) (by decide)⟩

/-- Claim C7 counterexample: with two characters of which exactly one is
unmapped and a default voice set, the code pushes TWO warning strings (the
unmapped-characters message and the default-voice fallback message), not
exactly one warning entry as claimed. -/
theorem one_unmapped_two_warnings :
    (validateScriptVoices [⟨"NARRATOR", "Hi", 1⟩, ⟨"BOB", "Yo", 2⟩]
        [("NARRATOR", "fable")] "alloy").warnings.length = 2 := by
  rfl

/-- Claim C7 (amended): an empty script-line list always yields
`isValid = false` with exactly the no-dialogue error; a non-empty list with
a non-blank default voice in which exactly one appearing character is
unmapped yields `isValid = true`, `unmappedCharacters` equal to exactly that
character — and exactly TWO warning entries (not one). -/
theorem validateScriptVoices_spec (vm : List (String × String)) (dv : String)
    (lines : List ScriptLine) (c : String)
    (hne : lines ≠ [])
    (hdv : (dv == "" || trimChars dv.data == []) = false)
    (hu : (uniqueCharacters lines).filter (voiceFalsy vm) = [c]) :
    validateScriptVoices [] vm dv
      = { isValid := false, errors := ["Script contains no dialogue lines"],
          warnings := [], unmappedCharacters := [] }
    ∧ (validateScriptVoices lines vm dv).isValid = true
    ∧ (validateScriptVoices lines vm dv).unmappedCharacters = [c]
    ∧ (validateScriptVoices lines vm dv).warnings.length = 2 := by
  have hle : lines.isEmpty = false := by
    cases lines with
    | nil => exact absurd rfl hne
    | cons a l => rfl
  have hdv2 : ¬dv = "" ∧ ¬trimChars dv.data = [] := by
    simpa using hdv
  refine ⟨rfl, ?_, ?_, ?_⟩ <;>
    simp [validateScriptVoices, hle, hu, hdv, hdv2.1, hdv2.2]

/-- Witness for `validateScriptVoices_spec`: NARRATOR mapped, BOB unmapped,
default voice `alloy`. -/
theorem validateScriptVoices_spec_witness :
    (([⟨"NARRATOR", "Hi", 1⟩, ⟨"BOB", "Yo", 2⟩] : List ScriptLine) ≠ []
      ∧ (("alloy" == "" || trimChars "alloy".data == []) = false)
      ∧ (uniqueCharacters [⟨"NARRATOR", "Hi", 1⟩, ⟨"BOB", "Yo", 2⟩]).filter
          (voiceFalsy [("NARRATOR", "fable")]) = ["BOB"])
    ∧ (validateScriptVoices [] [("NARRATOR", "fable")] "alloy"
        = { isValid := false, errors := ["Script contains no dialogue lines"],
            warnings := [], unmappedCharacters := [] }
      ∧ (validateScriptVoices [⟨"NARRATOR", "Hi", 1⟩, ⟨"BOB", "Yo", 2⟩]
          [("NARRATOR", "fable")] "alloy").isValid = true
      ∧ (validateScriptVoices [⟨"NARRATOR", "Hi", 1⟩, ⟨"BOB", "Yo", 2⟩]
          [("NARRATOR", "fable")] "alloy").unmappedCharacters = ["BOB"]
      ∧ (validateScriptVoices [⟨"NARRATOR", "Hi", 1⟩, ⟨"BOB", "Yo", 2⟩]
          [("NARRATOR", "fable")] "alloy").warnings.length = 2) :=
  ⟨⟨by decide, by decide, by decide⟩,
   validateScriptVoices_spec [("NARRATOR", "fable")] "alloy"
     [⟨"NARRATOR", "Hi", 1⟩, ⟨"BOB", "Yo", 2⟩] "BOB"
     (by decide) (by decide) (by decide)⟩

/-! ## Plugin script-narration flow (NarratorPlugin.narrateScript, src/main.ts) -/

/-- An externally observable action of the `narrateScript` flow. -/
inductive PluginAction where
  | notice (msg : String)
  | readFile
  | openStreamingChannel
deriving DecidableEq

/-- The control flow of `NarratorPlugin.narrateScript`: check `isScriptFile`
(notice and return if not a script), read the raw file, extract character
voices, clean the content, show the streaming notice, then call
`narrateScriptStreaming` — which immediately constructs the player and opens
the WebSocket. `parseScriptContent`/`validateScriptVoices` are called on no
path: the extracted arguments are forwarded unchecked. -/
def narrateScript (fileIsScript : Bool) (contentLines : List String)
    (characterVoices : List (String × String)) (defaultVoice : String) :
    List PluginAction :=
  if !fileIsScript then
    [.notice "This file is not a narrator script"]
  else
    [.readFile, .notice "Streaming script narration", .openStreamingChannel]

/-- Claim C8 (code bug): a script file whose body parses to zero dialogue
lines, with a blank default voice, fails `validateScriptVoices` on both
counts — yet `narrateScript` still opens the streaming channel: no
validation runs and no validation failure is reported before network
activity. -/
theorem narrateScript_skips_validation :
    (validateScriptVoices (parseScriptContent ["# Title"]) [] "").isValid = false
    ∧ (validateScriptVoices (parseScriptContent ["# Title"]) [] "").errors
        = ["Script contains no dialogue lines"]
    ∧ PluginAction.openStreamingChannel ∈ narrateScript true ["# Title"] [] ""
    ∧ narrateScript true ["# Title"] [] ""
        = [.readFile, .notice "Streaming script narration", .openStreamingChannel] := by
  refine ⟨by decide, by decide, ?_, rfl⟩
  simp [narrateScript]

/-- Witness for `terminal_message_handling` at the initial session and the
empty chunk prefix. -/
theorem terminal_message_handling_witness :
    (initialSession.wsClosed = false
      ∧ processMessage initialSession .complete 0 = (initialSession, []))
    ∧ (runSession (mkAudioMsgs [] ++ [(.complete, 0)])).2.countP
        SessionEvent.isCompleted = 0
    ∧ (runSession (mkAudioMsgs [] ++ [(.finalComplete, 0)])).2.countP
        SessionEvent.isCompleted = 1 :=
  ⟨⟨rfl, terminal_message_handling.1 initialSession 0 rfl⟩,
   terminal_message_handling.2.1 [] 0,
   terminal_message_handling.2.2 [] 0⟩

/-- Witness for `callbacks_at_most_once`: one chunk, then `finalComplete`,
then two more `finalComplete` messages a misbehaving server might send. -/
theorem callbacks_at_most_once_witness :
    ((runSession [(.audio [(1:ℚ)] (some 8000), 0), (.finalComplete, 2),
        (.finalComplete, 3), (.finalComplete, 4)]).2.countP
        SessionEvent.isCallback) ≤ 1
    ∧ (runSession [(.audio [(1:ℚ)] (some 8000), 0), (.finalComplete, 2),
        (.finalComplete, 3), (.finalComplete, 4)]).2.Pairwise
        (fun a b =>
          SessionEvent.isCallback a = true → SessionEvent.isChunkScheduled b = false) :=
  callbacks_at_most_once [(.audio [(1:ℚ)] (some 8000), 0), (.finalComplete, 2),
    (.finalComplete, 3), (.finalComplete, 4)]

/-- Witness for `device_release_on_exit`: empty prefix, `finalComplete` at
clock 0. -/
theorem device_release_on_exit_witness :
    (runSession (mkAudioMsgs [] ++ [(TerminalMsg.fin.toMsg, 0)])).1.player.contextClosed = true
    ∧ (runSession (mkAudioMsgs [] ++ [(TerminalMsg.fin.toMsg, 0)])).1.wsClosed = true
    ∧ (∀ st : SessionState,
        (cancelSession st).player.contextClosed = st.player.contextClosed
        ∧ (cancelSession st).player.isPlaying = false
        ∧ (cancelSession st).wsClosed = true) :=
  device_release_on_exit [] .fin 0
